import Mathlib

/-!
Shallow embedding of the KB2040/Daisy groovebox synthesis engine
(firmware/daisy/seed/kb2040_groovebox/kb2040_groovebox.cpp).

Modelling conventions:
* C `float` arithmetic is modelled as exact rational arithmetic (`ℚ`).
* Transcendental library functions used by the firmware (`powf`, `expf`,
  `mtof`, `sinf`) and the float constant `2*PI` are abstracted into an
  `ExtFuns` record; every theorem is stated for an arbitrary `ExtFuns`,
  so it holds in particular for the real functions.
* `(size_t)` casts of nonnegative float expressions are `Nat.floor`.
* Fixed C arrays (`voices[6]`, `drumVoices[8]`) are functions out of
  `Fin 6` / `Fin 8`; the looper sample buffers are functions `Nat → ℚ`.
* The global variables of the firmware are collected in `EngineState`;
  each MIDI handler is a pure state transformer.
-/

/-- External math functions the firmware calls (DaisySP / libm); abstracted
since they are not part of this repository's sources. -/
structure ExtFuns where
  powf : ℚ → ℚ → ℚ
  expf : ℚ → ℚ
  mtof : ℚ → ℚ
  sinf : ℚ → ℚ
  twoPi : ℚ

/-- `kNumVoices` in the source. -/
def kNumVoices : Nat := 6

/-- `kNumDrumVoices` in the source. -/
def kNumDrumVoices : Nat := 8

/-- `kPitchBendRange` (plus or minus 2 semitones). -/
def kPitchBendRange : ℚ := 2

/-- `kDetuneSemi` (osc2 slight detune). -/
def kDetuneSemi : ℚ := 0.08

/-- `kMaxFilterCutoff`. -/
def kMaxFilterCutoff : ℚ := 10000

/-- `kMinFilterCutoff`. -/
def kMinFilterCutoff : ℚ := 80

/-- `kLooperMaxSamples = 48000 * 8`. -/
def kLooperMaxSamples : Nat := 48000 * 8

/-- `enum InstrumentMode` in the source. -/
inductive InstrumentMode where
  | polySynth
  | drumKit
deriving DecidableEq, Repr

/-- `struct Voice`: the oscillator objects are represented by the frequency
last fed to `SetFreq` by the MIDI handlers. -/
structure Voice where
  note : Nat
  active : Bool
  gate : Bool
  keyDown : Bool
  vel : ℚ
  osc1Freq : ℚ
  osc2Freq : ℚ
deriving DecidableEq, Repr

/-- `struct SimpleEnv` (drum engine decay envelope). -/
structure SimpleEnv where
  value : ℚ
  decay : ℚ
deriving DecidableEq, Repr

/-- `enum DrumType`. -/
inductive DrumType where
  | kick
  | snare
  | hatClosed
  | hatOpen
  | tomLow
  | tomHigh
  | clap
  | perc
deriving DecidableEq, Repr

/-- `struct DrumVoice`. -/
structure DrumVoice where
  type : DrumType
  env : SimpleEnv
  noiseEnv : SimpleEnv
  phase : ℚ
  freq : ℚ
  pitchScale : ℚ
  pitchDecay : ℚ
  velocity : ℚ
  active : Bool
deriving DecidableEq, Repr

/-- All global mutable state of the firmware that the MIDI handlers and the
render loop touch. -/
structure EngineState where
  masterGain : ℚ
  cutoff : ℚ
  resonance : ℚ
  attack : ℚ
  decay : ℚ
  sustain : ℚ
  release : ℚ
  vibratoRate : ℚ
  vibratoDepth : ℚ
  modWheel : ℚ
  pitchBendSemi : ℚ
  delayTimeSec : ℚ
  delayFeedback : ℚ
  delayMix : ℚ
  reverbMix : ℚ
  reverbTime : ℚ
  bassBoost : ℚ
  driveAmount : ℚ
  looperLevel : ℚ
  instrMode : InstrumentMode
  sustainOn : Bool
  voices : Fin 6 → Voice
  voiceRotate : Fin 6
  drums : Fin 8 → DrumVoice
  samplerate : ℚ
  delaySamples : Nat
  reverbFeedback : ℚ
  looperL : Nat → ℚ
  looperR : Nat → ℚ
  looperWrite : Nat
  looperLength : Nat
  looperPlay : Nat
  looperRecording : Bool
  looperPlaying : Bool

/-- `CCNorm`. -/
def ccNorm (v : Nat) : ℚ := (v : ℚ) / 127

/-- `UpdateDelayParams`: recompute `g_delaySamples` from the delay-time
parameter, clamped to `[0.02 * samplerate, 1.0 * samplerate]`. -/
def updateDelayParams (s : EngineState) : EngineState :=
  let minDelay : Nat := ⌊(0.02 : ℚ) * s.samplerate⌋₊
  let maxDelay : Nat := ⌊(1.0 : ℚ) * s.samplerate⌋₊
  let target : Nat := ⌊s.delayTimeSec * s.samplerate⌋₊
  { s with delaySamples := min (max target minDelay) maxDelay }

/-- `UpdateReverbParams`. -/
def updateReverbParams (s : EngineState) : EngineState :=
  let fb : ℚ := 0.2 + 0.75 * s.reverbTime
  { s with reverbFeedback := if fb > 0.95 then 0.95 else fb }

/-- `StopLooper`. -/
def stopLooper (s : EngineState) : EngineState :=
  { s with looperRecording := false, looperPlaying := false,
           looperWrite := 0, looperLength := 0, looperPlay := 0 }

/-- `StartLooperRecord`. -/
def startLooperRecord (s : EngineState) : EngineState :=
  { s with looperRecording := true, looperPlaying := false,
           looperWrite := 0, looperLength := 0 }

/-- `FinishLooperRecord`. -/
def finishLooperRecord (s : EngineState) : EngineState :=
  let s1 := { s with looperRecording := false }
  if 0 < s.looperWrite then
    { s1 with looperLength := s.looperWrite, looperPlay := 0, looperPlaying := true }
  else s1

/-- `ToggleLooperPlayback`. -/
def toggleLooperPlayback (s : EngineState) : EngineState :=
  if s.looperLength = 0 then s
  else
    let p := !s.looperPlaying
    { s with looperPlaying := p, looperPlay := if p then 0 else s.looperPlay }

/-- `FindDrumVoice`: first inactive slot, else slot 0. -/
def findDrumVoice (dvs : Fin 8 → DrumVoice) : Fin 8 :=
  ((List.finRange 8).find? (fun i => !(dvs i).active)).getD 0

/-- `DrumTypeForNote`. -/
def drumTypeForNote (note : Nat) : DrumType :=
  if note = 36 then .kick
  else if note = 38 then .snare
  else if note = 39 then .clap
  else if note = 41 ∨ note = 43 then .tomLow
  else if note = 45 ∨ note = 47 then .tomHigh
  else if note = 42 ∨ note = 44 then .hatClosed
  else if note = 46 then .hatOpen
  else if note = 49 ∨ note = 51 then .perc
  else .snare

/-- `SimpleEnv::Trigger`. -/
def simpleEnvTrigger (E : ExtFuns) (amplitude seconds samplerate : ℚ) : SimpleEnv :=
  let sec := if seconds < 0.001 then 0.001 else seconds
  { value := amplitude, decay := E.expf (-1 / (sec * samplerate)) }

/-- `TriggerDrum`: allocate a drum slot and fill it from the per-type table. -/
def triggerDrum (E : ExtFuns) (note : Nat) (vel : ℚ) (s : EngineState) : EngineState :=
  let i := findDrumVoice s.drums
  let sr := s.samplerate
  let t := drumTypeForNote note
  let dv : DrumVoice :=
    match t with
    | .kick =>
      { type := t, env := simpleEnvTrigger E (1.2 * vel) 0.35 sr,
        noiseEnv := simpleEnvTrigger E (0.4 * vel) 0.05 sr,
        phase := 0, freq := 55 + 40 * vel, pitchScale := 3 + 2 * vel,
        pitchDecay := 0.9994, velocity := vel, active := true }
    | .snare =>
      { type := t, env := simpleEnvTrigger E (0.9 * vel) 0.25 sr,
        noiseEnv := simpleEnvTrigger E (0.8 * vel) 0.18 sr,
        phase := 0, freq := 180 + 80 * vel, pitchScale := 1,
        pitchDecay := 1, velocity := vel, active := true }
    | .hatClosed =>
      { type := t, env := simpleEnvTrigger E (0.6 * vel) 0.08 sr,
        noiseEnv := simpleEnvTrigger E (0.7 * vel) 0.05 sr,
        phase := 0, freq := 6000, pitchScale := 1,
        pitchDecay := 1, velocity := vel, active := true }
    | .hatOpen =>
      { type := t, env := simpleEnvTrigger E (0.6 * vel) 0.25 sr,
        noiseEnv := simpleEnvTrigger E (0.7 * vel) 0.20 sr,
        phase := 0, freq := 5500, pitchScale := 1,
        pitchDecay := 1, velocity := vel, active := true }
    | .tomLow =>
      { type := t, env := simpleEnvTrigger E (1.0 * vel) 0.4 sr,
        noiseEnv := simpleEnvTrigger E (0.4 * vel) 0.12 sr,
        phase := 0, freq := 110 + 30 * vel, pitchScale := 1.8,
        pitchDecay := 0.9996, velocity := vel, active := true }
    | .tomHigh =>
      { type := t, env := simpleEnvTrigger E (0.9 * vel) 0.3 sr,
        noiseEnv := simpleEnvTrigger E (0.4 * vel) 0.1 sr,
        phase := 0, freq := 180 + 60 * vel, pitchScale := 1.6,
        pitchDecay := 0.9995, velocity := vel, active := true }
    | .clap =>
      { type := t, env := simpleEnvTrigger E (0.8 * vel) 0.18 sr,
        noiseEnv := simpleEnvTrigger E (1.0 * vel) 0.12 sr,
        phase := 0, freq := 800, pitchScale := 1,
        pitchDecay := 1, velocity := vel, active := true }
    | .perc =>
      { type := t, env := simpleEnvTrigger E (0.7 * vel) 0.22 sr,
        noiseEnv := simpleEnvTrigger E (0.7 * vel) 0.18 sr,
        phase := 0, freq := 430, pitchScale := 1.2,
        pitchDecay := 0.9996, velocity := vel, active := true }
  { s with drums := Function.update s.drums i dv }

/-- `FindExistingVoiceForNote`: first voice holding this note that is
active-or-keyDown. -/
def findExistingVoiceForNote (note : Nat) (vs : Fin 6 → Voice) : Option (Fin 6) :=
  (List.finRange 6).find? (fun i => (vs i).note == note && ((vs i).active || (vs i).keyDown))

/-- `FindIdleVoice`: first voice that is neither active nor keyDown. -/
def findIdleVoice (vs : Fin 6 → Voice) : Option (Fin 6) :=
  (List.finRange 6).find? (fun i => !(vs i).active && !(vs i).keyDown)

/-- `StealVoice`: take the voice at the round-robin cursor, clear it, and
advance the cursor by one modulo the pool size (the `Fin 6` addition). -/
def stealVoice (s : EngineState) : Fin 6 × EngineState :=
  let i := s.voiceRotate
  (i, { s with voiceRotate := s.voiceRotate + 1,
               voices := Function.update s.voices i
                 { s.voices i with active := false, gate := false, keyDown := false, vel := 0 } })

/-- `AllocateVoiceForNote`. -/
def allocateVoiceForNote (note : Nat) (s : EngineState) : Fin 6 × EngineState :=
  match findExistingVoiceForNote note s.voices with
  | some i => (i, s)
  | none =>
    match findIdleVoice s.voices with
    | some i => (i, s)
    | none => stealVoice s

/-- The voice record written by `HandleNoteOn` for a melodic note: note,
velocity/127, keyDown, gate and active set, oscillator frequencies seeded
from the note plus the current pitch bend (osc2 detuned). -/
def mkVoice (E : ExtFuns) (note : Nat) (vel bend : ℚ) : Voice :=
  { note := note, vel := vel, keyDown := true, gate := true, active := true,
    osc1Freq := E.mtof ((note : ℚ) + bend),
    osc2Freq := E.mtof ((note : ℚ) + bend + kDetuneSemi) }

/-- The per-voice effect of the note-release loops in `HandleNoteOff` and the
velocity-0 branch of `HandleNoteOn`. -/
def releaseIfMatch (sustainOn : Bool) (note : Nat) (v : Voice) : Voice :=
  if v.note = note ∧ v.keyDown then
    { v with keyDown := false, gate := if sustainOn then v.gate else false }
  else v

/-- `HandleNoteOn`. -/
def handleNoteOn (E : ExtFuns) (channel note velocity : Nat) (s : EngineState) : EngineState :=
  if channel ≠ 1 then s
  else if velocity = 0 then
    { s with voices := fun i => releaseIfMatch s.sustainOn note (s.voices i) }
  else
    let vel : ℚ := (velocity : ℚ) / 127
    if s.instrMode = .drumKit then triggerDrum E note vel s
    else
      let p := allocateVoiceForNote note s
      let s1 := p.2
      { s1 with voices := Function.update s1.voices p.1 (mkVoice E note vel s1.pitchBendSemi) }

/-- `HandleNoteOff`. -/
def handleNoteOff (channel note velocity : Nat) (s : EngineState) : EngineState :=
  if channel ≠ 1 then s
  else if s.instrMode = .drumKit then s
  else { s with voices := fun i => releaseIfMatch s.sustainOn note (s.voices i) }

/-- The `MidiCC::SUSTAIN_PEDAL` branch of `HandleCC`. -/
def sustainPedalCC (val : Nat) (s : EngineState) : EngineState :=
  let newSustain : Bool := decide (64 ≤ val)
  if newSustain ∧ ¬(s.sustainOn = true) then { s with sustainOn := true }
  else if ¬(newSustain = true) ∧ s.sustainOn = true then
    { s with sustainOn := false,
             voices := fun i =>
               let v := s.voices i
               if ¬(v.keyDown = true) ∧ v.gate = true then { v with gate := false } else v }
  else s

/-- The `MidiCC::LOOPER_CONTROL` branch of `HandleCC`. -/
def looperControlCC (val : Nat) (s : EngineState) : EngineState :=
  if val < 20 then stopLooper s
  else if val < 80 then
    if ¬(s.looperRecording = true) then startLooperRecord s else finishLooperRecord s
  else toggleLooperPlayback s

/-- `HandleCC`: full controller dispatch table. -/
def handleCC (E : ExtFuns) (channel cc val : Nat) (s : EngineState) : EngineState :=
  if channel ≠ 1 then s
  else
    let n : ℚ := ccNorm val
    if cc = 7 then { s with masterGain := E.powf n 1.5 }
    else if cc = 70 then
      { s with cutoff := kMinFilterCutoff * E.powf (kMaxFilterCutoff / kMinFilterCutoff) (n * n) }
    else if cc = 71 then { s with resonance := 0.1 + 0.9 * n }
    else if cc = 72 then { s with attack := 0.001 + 2 * n }
    else if cc = 73 then { s with decay := 0.01 + 3 * n }
    else if cc = 74 then { s with sustain := n }
    else if cc = 75 then { s with release := 0.02 + 4 * n }
    else if cc = 77 then updateDelayParams { s with delayTimeSec := 0.02 + 0.98 * n }
    else if cc = 78 then
      let fb := 0.02 + 0.9 * n
      { s with delayFeedback := if fb > 0.95 then 0.95 else fb }
    else if cc = 79 then { s with delayMix := n }
    else if cc = 80 then { s with reverbMix := n }
    else if cc = 81 then updateReverbParams { s with reverbTime := n }
    else if cc = 84 then { s with bassBoost := n }
    else if cc = 85 then { s with driveAmount := n }
    else if cc = 92 then { s with looperLevel := n }
    else if cc = 76 then { s with vibratoRate := 0.1 + 8 * n }
    else if cc = 1 then { s with modWheel := n }
    else if cc = 64 then sustainPedalCC val s
    else if cc = 90 then
      { s with instrMode := if 64 ≤ val then .drumKit else .polySynth }
    else if cc = 91 then looperControlCC val s
    else s

/-- `HandlePitchBend`: 14-bit value, center 8192, deadzone 256, normalized
and clamped to a 2-semitone offset either way. -/
def handlePitchBend (channel lsb msb : Nat) (s : EngineState) : EngineState :=
  if channel ≠ 1 then s
  else
    let value14 : Nat := msb * 128 + lsb
    let centered : Int := (value14 : Int) - 8192
    if -256 < centered ∧ centered < 256 then { s with pitchBendSemi := 0 }
    else
      let norm0 : ℚ := (centered : ℚ) / 8192
      let norm1 : ℚ := if norm0 > 1 then 1 else norm0
      let norm : ℚ := if norm1 < -1 then -1 else norm1
      { s with pitchBendSemi := norm * kPitchBendRange }

/-- The value-snapping in `SimpleEnv::Process`: values below 1.0e-5 are set
to zero. -/
def snapEnv (q : ℚ) : ℚ := if q < 0.00001 then 0 else q

/-- `SimpleEnv::Process`: returns the pre-decay value and the updated
envelope. -/
def simpleEnvProcess (e : SimpleEnv) : ℚ × SimpleEnv :=
  (e.value, { e with value := snapEnv (e.value * e.decay) })

/-- `SimpleEnv::Active`. -/
def simpleEnvActiveB (e : SimpleEnv) : Bool := decide (0.0001 < e.value)

/-- One drum voice's slice of `ProcessDrums` for one sample; `noise` is the
white-noise sample drawn by `rand()` for this voice. Returns the voice's
contribution to the drum bus and the advanced voice state. -/
def drumVoiceStep (E : ExtFuns) (sr noise : ℚ) (v : DrumVoice) : ℚ × DrumVoice :=
  if v.active then
    let pr := simpleEnvProcess v.env
    let envOut := pr.1
    let env1 := pr.2
    let nr := simpleEnvProcess v.noiseEnv
    let noiseOut := nr.1
    let nenv1 := nr.2
    if envOut ≤ 0 ∧ noiseOut ≤ 0 then
      (0, { v with env := env1, noiseEnv := nenv1, active := false })
    else
      let noTone : Bool := v.type = .hatClosed ∨ v.type = .hatOpen ∨ v.type = .clap
      let phase1 : ℚ :=
        if noTone then v.phase
        else
          let p := v.phase + v.freq * v.pitchScale / sr
          if 1 ≤ p then p - 1 else p
      let tone : ℚ := if noTone then 0 else E.sinf (E.twoPi * phase1)
      let ps1 : ℚ :=
        if noTone then v.pitchScale
        else
          let q := v.pitchScale * v.pitchDecay
          if q < 1 then 1 else q
      let mix : ℚ :=
        match v.type with
        | .kick => tone * envOut + 0.2 * noise * noiseOut
        | .snare => 0.35 * tone * envOut + noise * noiseOut
        | .hatClosed => noise * (0.6 * envOut + 0.9 * noiseOut)
        | .hatOpen => noise * (0.6 * envOut + 0.9 * noiseOut)
        | .tomLow => 0.8 * tone * envOut + 0.3 * noise * noiseOut
        | .tomHigh => 0.8 * tone * envOut + 0.3 * noise * noiseOut
        | .clap => noise * (0.5 * envOut + 1.1 * noiseOut)
        | .perc => 0.5 * tone * envOut + 0.6 * noise * noiseOut
      (mix * v.velocity,
       { v with env := env1, noiseEnv := nenv1, phase := phase1,
                pitchScale := ps1,
                active := simpleEnvActiveB env1 || simpleEnvActiveB nenv1 })
  else (0, v)

/-- `ProcessDrums`: sum the contributions of all eight slots and advance each
slot's state (the slots are independent, so the C loop is a pointwise map
plus a sum). -/
def processDrums (E : ExtFuns) (sr : ℚ) (noise : Fin 8 → ℚ) (dvs : Fin 8 → DrumVoice) :
    ℚ × (Fin 8 → DrumVoice) :=
  (((List.finRange 8).map (fun i => (drumVoiceStep E sr (noise i) (dvs i)).1)).sum,
   fun i => (drumVoiceStep E sr (noise i) (dvs i)).2)

/-- The drum slice of one `AudioCallback` sample: `ProcessDrums` is called
unconditionally, its output is added to the dry bus only in drum-kit mode. -/
def renderDrumSection (E : ExtFuns) (noise : Fin 8 → ℚ) (dry : ℚ) (s : EngineState) :
    ℚ × EngineState :=
  let pr := processDrums E s.samplerate noise s.drums
  ((if s.instrMode = .drumKit then dry + pr.1 else dry), { s with drums := pr.2 })

/-- Iterated per-sample stepping of a single drum voice, with noise stream
`ns`. -/
def drumIter (E : ExtFuns) (sr : ℚ) (ns : Nat → ℚ) (v : DrumVoice) : Nat → DrumVoice
  | 0 => v
  | k + 1 => (drumVoiceStep E sr (ns k) (drumIter E sr ns v k)).2

/-- The record half of the looper slice of one `AudioCallback` sample:
write the post-FX sample at the write cursor while strictly below capacity,
auto-finish the recording once the cursor has reached capacity. -/
def looperRecordPhase (wetL wetR : ℚ) (s : EngineState) : EngineState :=
  if s.looperRecording = true ∧ s.looperWrite < kLooperMaxSamples then
    { s with looperL := Function.update s.looperL s.looperWrite wetL,
             looperR := Function.update s.looperR s.looperWrite wetR,
             looperWrite := s.looperWrite + 1 }
  else if s.looperRecording = true ∧ ¬ s.looperWrite < kLooperMaxSamples then
    finishLooperRecord s
  else s

/-- The playback half of the looper slice of one `AudioCallback` sample:
mix the recorded sample into the output, advance and wrap the play cursor. -/
def looperPlayPhase (wetL wetR : ℚ) (s1 : EngineState) : ℚ × ℚ × EngineState :=
  if s1.looperPlaying = true ∧ 0 < s1.looperLength then
    let oL := wetL + s1.looperL s1.looperPlay * s1.looperLevel
    let oR := wetR + s1.looperR s1.looperPlay * s1.looperLevel
    let p1 := s1.looperPlay + 1
    (oL, oR, { s1 with looperPlay := if s1.looperLength ≤ p1 then 0 else p1 })
  else (wetL, wetR, s1)

/-- The looper slice of one `AudioCallback` sample (record, auto-finish on
overflow, playback mix): takes the post-FX stereo sample, returns the output
sample pair and the new state. -/
def looperRenderStep (wetL wetR : ℚ) (s : EngineState) : ℚ × ℚ × EngineState :=
  looperPlayPhase wetL wetR (looperRecordPhase wetL wetR s)

/-- The state established by `InitSynth(48000)` (globals' initializers plus
the explicit init code; 100 is the DaisySP `Oscillator` default frequency,
never otherwise observable). -/
def initState : EngineState :=
  { masterGain := 0.4, cutoff := 3000, resonance := 0.25,
    attack := 0.01, decay := 0.25, sustain := 0.8, release := 0.4,
    vibratoRate := 5, vibratoDepth := 0.25, modWheel := 0, pitchBendSemi := 0,
    delayTimeSec := 0.35, delayFeedback := 0.35, delayMix := 0.25,
    reverbMix := 0.25, reverbTime := 0.65, bassBoost := 0.6,
    driveAmount := 0.15, looperLevel := 0.7,
    instrMode := .polySynth, sustainOn := false,
    voices := fun _ =>
      { note := 60, active := false, gate := false, keyDown := false,
        vel := 0, osc1Freq := 100, osc2Freq := 100 },
    voiceRotate := 0,
    drums := fun _ =>
      { type := .kick, env := { value := 0, decay := 0.999 },
        noiseEnv := { value := 0, decay := 0.999 },
        phase := 0, freq := 0, pitchScale := 0, pitchDecay := 0,
        velocity := 0, active := false },
    samplerate := 48000,
    delaySamples := 16800,
    reverbFeedback := 0.2 + 0.75 * 0.65,
    looperL := fun _ => 0, looperR := fun _ => 0,
    looperWrite := 0, looperLength := 0, looperPlay := 0,
    looperRecording := false, looperPlaying := false }

/-- A decoded MIDI command, as dispatched by `ProcessMidi`. -/
inductive Cmd where
  | noteOn (channel note velocity : Nat)
  | noteOff (channel note velocity : Nat)
  | controlChange (channel cc val : Nat)
  | pitchBend (channel lsb msb : Nat)

/-- Dispatch of one command (the `switch` in `ProcessMidi`). -/
def applyCmd (E : ExtFuns) (c : Cmd) (s : EngineState) : EngineState :=
  match c with
  | .noteOn ch n v => handleNoteOn E ch n v s
  | .noteOff ch n v => handleNoteOff ch n v s
  | .controlChange ch cc v => handleCC E ch cc v s
  | .pitchBend ch l m => handlePitchBend ch l m s

/-- Apply a command sequence in arrival order. -/
def applyCmds (E : ExtFuns) (cs : List Cmd) (s : EngineState) : EngineState :=
  cs.foldl (fun t c => applyCmd E c t) s

/-- The looper's abstract state-machine state as described by the spec. -/
inductive LooperSM where
  | empty
  | recording
  | playing
  | stopped
deriving DecidableEq, Repr

/-- Map the concrete looper flags to the spec's state machine. -/
def looperStateOf (s : EngineState) : LooperSM :=
  if s.looperRecording then .recording
  else if s.looperPlaying then .playing
  else if s.looperLength = 0 then .empty
  else .stopped

/-- Looper state invariant: while recording, length is 0 and playback is
stopped; playback requires a nonempty recording; the write cursor never
passes the buffer capacity. Established at init and preserved by every
command and render step. -/
def LooperInv (s : EngineState) : Prop :=
  (s.looperRecording = true → s.looperLength = 0 ∧ s.looperPlaying = false) ∧
  (s.looperPlaying = true → 0 < s.looperLength) ∧
  s.looperWrite ≤ kLooperMaxSamples

/-- The controller numbers mapped by `HandleCC` (from `midi_protocol.h`). -/
def mappedCC (c : Nat) : Prop :=
  c ∈ ([1, 7, 64, 70, 71, 72, 73, 74, 75, 76, 77, 78, 79, 80, 81,
        84, 85, 90, 91, 92] : List Nat)

instance (c : Nat) : Decidable (mappedCC c) := by unfold mappedCC; infer_instance

/-- A trivial instantiation of the abstract external functions, used by
concrete witnesses. -/
def ext0 : ExtFuns :=
  { powf := fun _ _ => 0, expf := fun _ => 0, mtof := fun _ => 0,
    sinf := fun _ => 0, twoPi := 0 }

/-- A melodic voice that is currently held down (used by concrete states
below). -/
def heldVoice : Voice :=
  { note := 60, active := true, gate := true, keyDown := true, vel := 1,
    osc1Freq := 100, osc2Freq := 100 }

/-- Engine state in drum-kit mode with voice 0 still holding note 60 (reached
by a NoteOn followed by an instrument-mode switch). -/
def drumModeState : EngineState :=
  { initState with instrMode := .drumKit,
                   voices := Function.update initState.voices 0 heldVoice }

/-- `drumModeState` with the sustain pedal held. -/
def drumSusState : EngineState := { drumModeState with sustainOn := true }

/-- Poly-synth state with the sustain pedal held and voice 0 holding note
60. -/
def susState : EngineState :=
  { initState with sustainOn := true,
                   voices := Function.update initState.voices 0 heldVoice }

/-- A recording looper state whose write cursor has just reached the buffer
capacity. -/
def recFullState : EngineState :=
  { initState with looperRecording := true, looperWrite := kLooperMaxSamples }

/-- A freshly triggered drum voice with rational decay factors (used as a
concrete input for the deactivation witness). -/
def decayingDrumVoice : DrumVoice :=
  { type := .kick, env := { value := 1, decay := 1/2 },
    noiseEnv := { value := 1, decay := 1/2 },
    phase := 0, freq := 55, pitchScale := 3, pitchDecay := 0.9994,
    velocity := 1, active := true }

/-- Voice-pool invariant: at most one voice is active-or-keyDown for any
given note. -/
def VoiceInv (s : EngineState) : Prop :=
  ∀ i j : Fin 6, ((s.voices i).active || (s.voices i).keyDown) = true →
    ((s.voices j).active || (s.voices j).keyDown) = true →
    (s.voices i).note = (s.voices j).note → i = j

/-- Number of voices that are active-or-keyDown. -/
def countSounding (s : EngineState) : Nat :=
  ((List.finRange 6).filter (fun i => (s.voices i).active || (s.voices i).keyDown)).length

/-- C1 counterexample input: in drum-kit mode, `HandleNoteOn` with velocity 0
still releases matching melodic voices (its velocity-0 branch runs before the
mode check) while `HandleNoteOff` returns early and changes nothing. -/
theorem noteOnZeroVel_noteOff_differ_in_drumMode :
    handleNoteOn ext0 1 60 0 drumModeState ≠ handleNoteOff 1 60 100 drumModeState := by
  intro h
  have h2 := congrArg (fun t => (t.voices 0).keyDown) h
  have hL : ((handleNoteOn ext0 1 60 0 drumModeState).voices 0).keyDown = false := by decide
  have hR : ((handleNoteOff 1 60 100 drumModeState).voices 0).keyDown = true := by decide
  simp only at h2
  rw [hL, hR] at h2
  exact Bool.false_ne_true h2

/-- C1 (amended): in poly-synth mode, `NoteOn` with velocity 0 produces
exactly the same state as `NoteOff`, for every channel, note, note-off
velocity and state; in drum-kit mode `NoteOff` is a no-op while `NoteOn`
with velocity 0 still releases matching melodic voices. -/
theorem noteOnZeroVel_eq_noteOff (E : ExtFuns) (ch note vel : Nat) (s : EngineState)
    (h : s.instrMode = .polySynth) :
    handleNoteOn E ch note 0 s = handleNoteOff ch note vel s := by
  unfold handleNoteOn handleNoteOff
  by_cases hch : ch ≠ 1
  · simp [hch]
  · simp [hch, h]

theorem noteOnZeroVel_eq_noteOff_witness :
    initState.instrMode = .polySynth ∧
    handleNoteOn ext0 1 60 0 initState = handleNoteOff 1 60 100 initState :=
  ⟨rfl, noteOnZeroVel_eq_noteOff ext0 1 60 100 initState rfl⟩

/-- C2 counterexample input: at the maximal 14-bit value 16383 the stored
pitch-bend offset is 2 * 8191/8192 semitones, not exactly +2. -/
theorem pitchBend_max_not_two :
    (handlePitchBend 1 127 127 initState).pitchBendSemi = 2 * (8191 / 8192) ∧
    (handlePitchBend 1 127 127 initState).pitchBendSemi ≠ 2 := by
  have h1 : (handlePitchBend 1 127 127 initState).pitchBendSemi = 2 * (8191 / 8192) := by
    norm_num [handlePitchBend, kPitchBendRange]
  refine ⟨h1, ?_⟩
  rw [h1]
  norm_num

/-- C2 (amended): with 7-bit data bytes and v = (msb<<7)|lsb, the deadzone
snaps the offset to exactly 0 for |v - 8192| < 256; v = 0 gives exactly -2
semitones; v = 16383 gives 2 * 8191/8192 (not quite +2) semitones; outside
the deadzone the offset is ((v-8192)/8192)*2 clamped to [-2, 2]. -/
theorem handlePitchBend_spec (lsb msb : Nat) (s : EngineState)
    (hl : lsb < 128) (hm : msb < 128) :
    (|((msb * 128 + lsb : Nat) : Int) - 8192| < 256 →
      (handlePitchBend 1 lsb msb s).pitchBendSemi = 0) ∧
    (msb * 128 + lsb = 0 →
      (handlePitchBend 1 lsb msb s).pitchBendSemi = -2) ∧
    (msb * 128 + lsb = 16383 →
      (handlePitchBend 1 lsb msb s).pitchBendSemi = 2 * (8191 / 8192)) ∧
    (256 ≤ |((msb * 128 + lsb : Nat) : Int) - 8192| →
      (handlePitchBend 1 lsb msb s).pitchBendSemi =
        max (-2) (min 2 (2 * (((((msb * 128 + lsb : Nat) : Int) - 8192 : Int) : ℚ) / 8192)))) := by
  have hv : msb * 128 + lsb ≤ 16383 := by omega
  refine ⟨?_, ?_, ?_, ?_⟩
  · intro h
    rw [abs_lt] at h
    simp only [handlePitchBend]
    rw [if_neg (by omega : ¬(1:Nat) ≠ 1), if_pos ⟨h.1, h.2⟩]
  · intro h
    simp only [handlePitchBend]
    rw [if_neg (by omega : ¬(1:Nat) ≠ 1), if_neg (by omega)]
    have h8 : ((msb * 128 + lsb : Nat) : Int) - 8192 = -8192 := by omega
    rw [h8]
    norm_num [kPitchBendRange]
  · intro h
    simp only [handlePitchBend]
    rw [if_neg (by omega : ¬(1:Nat) ≠ 1), if_neg (by omega)]
    have h8 : ((msb * 128 + lsb : Nat) : Int) - 8192 = 8191 := by omega
    rw [h8]
    norm_num [kPitchBendRange]
  · intro h
    rw [le_abs] at h
    simp only [handlePitchBend]
    rw [if_neg (by omega : ¬(1:Nat) ≠ 1), if_neg (by omega)]
    set c : Int := ((msb * 128 + lsb : Nat) : Int) - 8192 with hc
    have hcu : c ≤ 8191 := by omega
    have hcl : -8192 ≤ c := by omega
    have hqu : (c : ℚ) / 8192 ≤ 8191 / 8192 := by
      rw [div_le_div_iff_of_pos_right (by norm_num)]
      exact_mod_cast hcu
    have hql : (-1 : ℚ) ≤ (c : ℚ) / 8192 := by
      rw [le_div_iff₀ (by norm_num : (0:ℚ) < 8192)]
      exact_mod_cast hcl
    rw [if_neg (by linarith : ¬ (c : ℚ) / 8192 > 1), if_neg (by linarith : ¬ (c : ℚ) / 8192 < -1)]
    have hmin : min 2 (2 * ((c : ℚ) / 8192)) = 2 * ((c : ℚ) / 8192) := by
      apply min_eq_right; linarith
    have hmax : max (-2 : ℚ) (2 * ((c : ℚ) / 8192)) = 2 * ((c : ℚ) / 8192) := by
      apply max_eq_right; linarith
    dsimp only
    rw [hmin, hmax, kPitchBendRange]
    ring

theorem handlePitchBend_spec_witness :
    (0 : Nat) < 128 ∧
    ((|((0 * 128 + 0 : Nat) : Int) - 8192| < 256 →
      (handlePitchBend 1 0 0 initState).pitchBendSemi = 0) ∧
    (0 * 128 + 0 = 0 →
      (handlePitchBend 1 0 0 initState).pitchBendSemi = -2) ∧
    (0 * 128 + 0 = 16383 →
      (handlePitchBend 1 0 0 initState).pitchBendSemi = 2 * (8191 / 8192)) ∧
    (256 ≤ |((0 * 128 + 0 : Nat) : Int) - 8192| →
      (handlePitchBend 1 0 0 initState).pitchBendSemi =
        max (-2) (min 2 (2 * (((((0 * 128 + 0 : Nat) : Int) - 8192 : Int) : ℚ) / 8192))))) :=
  ⟨by decide, handlePitchBend_spec 0 0 initState (by decide) (by decide)⟩

/-- C8: CC78 stores min(0.02 + 0.9*(v/127), 0.95), hence at most 0.95; CC77
always leaves the delay length within [0.02 * samplerate, 1.0 * samplerate]
samples (20 ms to 1000 ms at 48 kHz), and value 0 lands exactly on the 20 ms
lower clamp. -/
theorem delayParam_clamps (E : ExtFuns) (v : Nat) (s : EngineState)
    (hsr : s.samplerate = 48000) :
    (handleCC E 1 78 v s).delayFeedback = min (0.02 + 0.9 * ((v : ℚ) / 127)) 0.95 ∧
    (handleCC E 1 78 v s).delayFeedback ≤ 0.95 ∧
    (0.02 * 48000 ≤ ((handleCC E 1 77 v s).delaySamples : ℚ) ∧
      ((handleCC E 1 77 v s).delaySamples : ℚ) ≤ 1.0 * 48000) ∧
    (v = 0 → ((handleCC E 1 77 v s).delaySamples : ℚ) = 0.02 * 48000) := by
  have hfb : (handleCC E 1 78 v s).delayFeedback =
      min (0.02 + 0.9 * ((v : ℚ) / 127)) 0.95 := by
    rcases le_or_lt ((0.02 : ℚ) + 0.9 * ((v : ℚ) / 127)) 0.95 with h | h
    · rw [min_eq_left h]
      norm_num [handleCC, ccNorm]
      norm_num at h
      exact fun hlt => absurd hlt (not_lt.mpr h)
    · rw [min_eq_right h.le]
      norm_num [handleCC, ccNorm]
      norm_num at h
      exact fun hle => absurd h (not_lt.mpr hle)
  have hds : (handleCC E 1 77 v s).delaySamples =
      min (max (⌊((0.02 : ℚ) + 0.98 * ((v : ℚ) / 127)) * 48000⌋₊) 960) 48000 := by
    norm_num [handleCC, updateDelayParams, ccNorm, hsr]
  refine ⟨hfb, ?_, ?_, ?_⟩
  · rw [hfb]; exact min_le_right _ _
  · rw [hds]
    constructor
    · have h1 : 960 ≤ min (max (⌊((0.02 : ℚ) + 0.98 * ((v : ℚ) / 127)) * 48000⌋₊) 960) 48000 :=
        le_min (le_max_right _ _) (by norm_num)
      calc (0.02 : ℚ) * 48000 = ((960 : Nat) : ℚ) := by norm_num
        _ ≤ _ := by exact_mod_cast h1
    · have h2 : min (max (⌊((0.02 : ℚ) + 0.98 * ((v : ℚ) / 127)) * 48000⌋₊) 960) 48000 ≤ 48000 :=
        min_le_right _ _
      calc ((min (max (⌊((0.02 : ℚ) + 0.98 * ((v : ℚ) / 127)) * 48000⌋₊) 960) 48000 : Nat) : ℚ)
          ≤ ((48000 : Nat) : ℚ) := by exact_mod_cast h2
        _ = 1.0 * 48000 := by norm_num
  · intro hv0
    subst hv0
    rw [hds]
    norm_num

theorem delayParam_clamps_witness :
    initState.samplerate = 48000 ∧
    ((handleCC ext0 1 78 0 initState).delayFeedback =
        min (0.02 + 0.9 * (((0 : Nat) : ℚ) / 127)) 0.95 ∧
      (handleCC ext0 1 78 0 initState).delayFeedback ≤ 0.95 ∧
      (0.02 * 48000 ≤ ((handleCC ext0 1 77 0 initState).delaySamples : ℚ) ∧
        ((handleCC ext0 1 77 0 initState).delaySamples : ℚ) ≤ 1.0 * 48000) ∧
      ((0 : Nat) = 0 → ((handleCC ext0 1 77 0 initState).delaySamples : ℚ) = 0.02 * 48000)) :=
  ⟨rfl, delayParam_clamps ext0 0 initState rfl⟩

/-- C9: commands on any channel other than the synthesis channel (1), and
control changes on channel 1 with an unmapped controller number, leave the
whole engine state unchanged. -/
theorem ignoredCommand_frame (E : ExtFuns) (s : EngineState) (ch d1 d2 c v : Nat)
    (hch : ch ≠ 1) (hcc : ¬ mappedCC c) :
    handleNoteOn E ch d1 d2 s = s ∧ handleNoteOff ch d1 d2 s = s ∧
    handleCC E ch d1 d2 s = s ∧ handlePitchBend ch d1 d2 s = s ∧
    handleCC E 1 c v s = s := by
  have hn := hcc
  simp only [mappedCC, List.mem_cons, List.not_mem_nil, or_false] at hn
  push_neg at hn
  obtain ⟨e1, e7, e64, e70, e71, e72, e73, e74, e75, e76, e77, e78, e79, e80,
    e81, e84, e85, e90, e91, e92⟩ := hn
  refine ⟨?_, ?_, ?_, ?_, ?_⟩
  · unfold handleNoteOn; rw [if_pos hch]
  · unfold handleNoteOff; rw [if_pos hch]
  · unfold handleCC; rw [if_pos hch]
  · unfold handlePitchBend; rw [if_pos hch]
  · simp [handleCC, e1, e7, e64, e70, e71, e72, e73, e74, e75, e76, e77, e78,
      e79, e80, e81, e84, e85, e90, e91, e92]

theorem ignoredCommand_frame_witness :
    (2 : Nat) ≠ 1 ∧ ¬ mappedCC 3 ∧
    (handleNoteOn ext0 2 60 100 initState = initState ∧
      handleNoteOff 2 60 100 initState = initState ∧
      handleCC ext0 2 70 5 initState = initState ∧
      handlePitchBend 2 0 64 initState = initState ∧
      handleCC ext0 1 3 5 initState = initState) :=
  ⟨by decide, by decide, ignoredCommand_frame ext0 initState 2 60 100 3 5 (by decide) (by decide)⟩

/-- C4 counterexample input: in drum-kit mode `HandleNoteOff` returns before
the release loop, so with the sustain pedal on a NoteOff for the held note 60
does NOT set that voice's keyDown to false as the claim requires. -/
theorem sustainPedal_noteOff_drumMode_counterexample :
    drumSusState.sustainOn = true ∧
    (drumSusState.voices 0).keyDown = true ∧
    (drumSusState.voices 0).note = 60 ∧
    ((handleNoteOff 1 60 0 drumSusState).voices 0).keyDown = true := by
  refine ⟨rfl, ?_, ?_, ?_⟩ <;> decide

/-- C4 (amended): with the sustain pedal on, in poly-synth mode a NoteOff
clears keyDown exactly on matching held voices and never clears any gate
(in drum-kit mode NoteOff is a no-op); releasing the pedal (CC64 < 64)
clears the gate of exactly the voices with keyDown = false and gate = true,
and no voice with keyDown = true loses its gate. -/
theorem sustainPedal_semantics (E : ExtFuns) (note vel : Nat) (s : EngineState)
    (hsus : s.sustainOn = true) :
    (s.instrMode = .polySynth →
      (∀ i, ((handleNoteOff 1 note vel s).voices i).gate = (s.voices i).gate) ∧
      (∀ i, (((handleNoteOff 1 note vel s).voices i).keyDown = true ↔
        (s.voices i).keyDown = true ∧ (s.voices i).note ≠ note))) ∧
    (∀ w, w < 64 →
      (handleCC E 1 64 w s).sustainOn = false ∧
      (∀ i, (((handleCC E 1 64 w s).voices i).gate = true ↔
        (s.voices i).gate = true ∧ (s.voices i).keyDown = true)) ∧
      (∀ i, ((handleCC E 1 64 w s).voices i).keyDown = (s.voices i).keyDown)) := by
  constructor
  · intro hmode
    have hno : handleNoteOff 1 note vel s =
        { s with voices := fun i => releaseIfMatch s.sustainOn note (s.voices i) } := by
      unfold handleNoteOff
      rw [if_neg (by omega : ¬(1:Nat) ≠ 1), if_neg (by simp [hmode])]
    rw [hno]
    constructor
    · intro i
      simp only [releaseIfMatch, hsus]
      split
      · rfl
      · rfl
    · intro i
      simp only [releaseIfMatch, hsus]
      by_cases hk : (s.voices i).keyDown = true
      · by_cases hnm : (s.voices i).note = note
        · rw [if_pos ⟨hnm, hk⟩]
          simp [hk, hnm]
        · rw [if_neg (by tauto)]
          simp [hk, hnm]
      · rw [if_neg (by tauto)]
        simp [hk]
  · intro w hw
    have hcc : handleCC E 1 64 w s =
        { s with sustainOn := false,
                 voices := fun i =>
                   if (s.voices i).keyDown = false ∧ (s.voices i).gate = true then
                     { s.voices i with gate := false }
                   else s.voices i } := by
      norm_num [handleCC, sustainPedalCC]
      rw [if_neg (by rintro ⟨ha, -⟩; omega), if_pos ⟨hw, hsus⟩]
    rw [hcc]
    refine ⟨rfl, ?_, ?_⟩
    · intro i
      by_cases hk : (s.voices i).keyDown = true
      · simp [hk]
      · rw [Bool.not_eq_true] at hk
        by_cases hg : (s.voices i).gate = true
        · simp [hk, hg]
        · simp [hk, hg]
    · intro i
      by_cases hk : (s.voices i).keyDown = true
      · simp [hk]
      · rw [Bool.not_eq_true] at hk
        by_cases hg : (s.voices i).gate = true
        · simp [hk, hg]
        · simp [hk, hg]

theorem sustainPedal_semantics_witness :
    susState.sustainOn = true ∧
    ((susState.instrMode = .polySynth →
      (∀ i, ((handleNoteOff 1 60 0 susState).voices i).gate = (susState.voices i).gate) ∧
      (∀ i, (((handleNoteOff 1 60 0 susState).voices i).keyDown = true ↔
        (susState.voices i).keyDown = true ∧ (susState.voices i).note ≠ 60))) ∧
    (∀ w, w < 64 →
      (handleCC ext0 1 64 w susState).sustainOn = false ∧
      (∀ i, (((handleCC ext0 1 64 w susState).voices i).gate = true ↔
        (susState.voices i).gate = true ∧ (susState.voices i).keyDown = true)) ∧
      (∀ i, ((handleCC ext0 1 64 w susState).voices i).keyDown = (susState.voices i).keyDown))) :=
  ⟨rfl, sustainPedal_semantics ext0 60 0 susState rfl⟩

/-- `HandleCC` on channel 1 with `MidiCC::LOOPER_CONTROL` reduces to the
looper-control branch. -/
theorem handleCC_looperControl (E : ExtFuns) (v : Nat) (s : EngineState) :
    handleCC E 1 91 v s = looperControlCC v s := by
  norm_num [handleCC]

/-- C5: the looper-control value bands — stop/clear below 20, record toggle
in [20, 80), playback toggle at 80 and above — with the state machine
transitions the spec describes, from any state satisfying the looper
invariant. -/
theorem looperControl_spec (E : ExtFuns) (v : Nat) (s : EngineState) (hinv : LooperInv s) :
    (v < 20 → looperStateOf (handleCC E 1 91 v s) = .empty ∧
      (handleCC E 1 91 v s).looperLength = 0 ∧ (handleCC E 1 91 v s).looperWrite = 0 ∧
      (handleCC E 1 91 v s).looperPlay = 0) ∧
    (20 ≤ v → v < 80 →
      (s.looperRecording = false → looperStateOf (handleCC E 1 91 v s) = .recording ∧
        (handleCC E 1 91 v s).looperWrite = 0 ∧ (handleCC E 1 91 v s).looperLength = 0 ∧
        (handleCC E 1 91 v s).looperPlaying = false) ∧
      (s.looperRecording = true →
        (0 < s.looperWrite → looperStateOf (handleCC E 1 91 v s) = .playing ∧
          (handleCC E 1 91 v s).looperPlay = 0 ∧
          (handleCC E 1 91 v s).looperLength = s.looperWrite) ∧
        (s.looperWrite = 0 → looperStateOf (handleCC E 1 91 v s) = .empty))) ∧
    (80 ≤ v →
      (s.looperLength = 0 → handleCC E 1 91 v s = s) ∧
      (0 < s.looperLength →
        (s.looperPlaying = true → looperStateOf (handleCC E 1 91 v s) = .stopped) ∧
        (s.looperPlaying = false → looperStateOf (handleCC E 1 91 v s) = .playing ∧
          (handleCC E 1 91 v s).looperPlay = 0))) := by
  obtain ⟨hrec, hplay, hwr⟩ := hinv
  simp only [handleCC_looperControl]
  refine ⟨?_, ?_, ?_⟩
  · intro hv
    unfold looperControlCC
    rw [if_pos hv]
    exact ⟨by simp [looperStateOf, stopLooper], rfl, rfl, rfl⟩
  · intro hv20 hv80
    unfold looperControlCC
    rw [if_neg (by omega), if_pos hv80]
    constructor
    · intro hnr
      rw [if_pos (by simp [hnr])]
      exact ⟨by simp [looperStateOf, startLooperRecord], rfl, rfl, rfl⟩
    · intro hr
      rw [if_neg (by simp [hr])]
      constructor
      · intro hw
        unfold finishLooperRecord
        rw [if_pos hw]
        exact ⟨by simp [looperStateOf], rfl, rfl⟩
      · intro hw0
        unfold finishLooperRecord
        rw [if_neg (by omega)]
        have hl := (hrec hr).1
        have hp := (hrec hr).2
        simp [looperStateOf, hl, hp]
  · intro hv80
    unfold looperControlCC
    rw [if_neg (by omega), if_neg (by omega)]
    unfold toggleLooperPlayback
    constructor
    · intro hl0; rw [if_pos hl0]
    · intro hlpos
      have hne : ¬ s.looperLength = 0 := by omega
      rw [if_neg hne]
      have hnr : s.looperRecording = false := by
        rcases Bool.eq_false_or_eq_true s.looperRecording with h | h
        · exact absurd (hrec h).1 (by omega)
        · exact h
      constructor
      · intro hp
        simp [looperStateOf, hp, hnr, hne]
      · intro hp
        simp [looperStateOf, hp, hnr, hne]

theorem looperControl_spec_witness :
    LooperInv initState ∧
    (10 < 20 → looperStateOf (handleCC ext0 1 91 10 initState) = .empty ∧
      (handleCC ext0 1 91 10 initState).looperLength = 0 ∧
      (handleCC ext0 1 91 10 initState).looperWrite = 0 ∧
      (handleCC ext0 1 91 10 initState).looperPlay = 0) :=
  ⟨by constructor
      · intro h; exact absurd h (by decide)
      · constructor
        · intro h; exact absurd h (by decide)
        · decide,
   ((looperControl_spec ext0 10 initState
      ⟨fun h => absurd h (by decide), fun h => absurd h (by decide), by decide⟩).1)⟩

/-- The playback half of the looper render step never touches the buffers,
the write cursor, or the record/length/playing flags. -/
theorem looperPlayPhase_frame (wetL wetR : ℚ) (s1 : EngineState) :
    ((looperPlayPhase wetL wetR s1).2.2).looperL = s1.looperL ∧
    ((looperPlayPhase wetL wetR s1).2.2).looperR = s1.looperR ∧
    ((looperPlayPhase wetL wetR s1).2.2).looperWrite = s1.looperWrite ∧
    ((looperPlayPhase wetL wetR s1).2.2).looperRecording = s1.looperRecording ∧
    ((looperPlayPhase wetL wetR s1).2.2).looperLength = s1.looperLength ∧
    ((looperPlayPhase wetL wetR s1).2.2).looperPlaying = s1.looperPlaying := by
  by_cases h : s1.looperPlaying = true ∧ 0 < s1.looperLength
  · simp [looperPlayPhase, h]
  · simp [looperPlayPhase, h]

/-- C6: during a render step the looper writes a sample only at a cursor
strictly below capacity (indices at or past capacity are never modified),
an in-bounds write lands at the write cursor and advances it by one, and
once the cursor has reached capacity the recording auto-finishes with the
recorded length exactly the capacity and the looper transitioned to
PLAYING. -/
theorem looperOverflow_safety (wetL wetR : ℚ) (s : EngineState) (hinv : LooperInv s) :
    (∀ j, kLooperMaxSamples ≤ j →
      ((looperRenderStep wetL wetR s).2.2).looperL j = s.looperL j ∧
      ((looperRenderStep wetL wetR s).2.2).looperR j = s.looperR j) ∧
    (s.looperRecording = true → s.looperWrite < kLooperMaxSamples →
      ((looperRenderStep wetL wetR s).2.2).looperL s.looperWrite = wetL ∧
      ((looperRenderStep wetL wetR s).2.2).looperR s.looperWrite = wetR ∧
      ((looperRenderStep wetL wetR s).2.2).looperWrite = s.looperWrite + 1) ∧
    (s.looperRecording = true → ¬ s.looperWrite < kLooperMaxSamples →
      s.looperWrite = kLooperMaxSamples ∧
      ((looperRenderStep wetL wetR s).2.2).looperRecording = false ∧
      ((looperRenderStep wetL wetR s).2.2).looperLength = kLooperMaxSamples ∧
      ((looperRenderStep wetL wetR s).2.2).looperPlaying = true) := by
  obtain ⟨hri, hpi, hwi⟩ := hinv
  obtain ⟨hbL, hbR, hbW, hbRec, hbLen, hbPl⟩ :=
    looperPlayPhase_frame wetL wetR (looperRecordPhase wetL wetR s)
  simp only [looperRenderStep] at *
  rw [hbL, hbR, hbW, hbRec, hbLen, hbPl]
  by_cases h1 : s.looperRecording = true ∧ s.looperWrite < kLooperMaxSamples
  · have hrp : looperRecordPhase wetL wetR s =
        { s with looperL := Function.update s.looperL s.looperWrite wetL,
                 looperR := Function.update s.looperR s.looperWrite wetR,
                 looperWrite := s.looperWrite + 1 } := by
      unfold looperRecordPhase
      rw [if_pos h1]
    rw [hrp]
    refine ⟨?_, ?_, ?_⟩
    · intro j hj
      constructor
      · exact Function.update_noteq (by omega) _ _
      · exact Function.update_noteq (by omega) _ _
    · intro _ _
      exact ⟨Function.update_same _ _ _, Function.update_same _ _ _, rfl⟩
    · intro _ hnlt
      exact absurd h1.2 hnlt
  · by_cases h2 : s.looperRecording = true
    · have hnlt : ¬ s.looperWrite < kLooperMaxSamples := fun hc => h1 ⟨h2, hc⟩
      have hweq : s.looperWrite = kLooperMaxSamples := by omega
      have hrp : looperRecordPhase wetL wetR s =
          { s with looperRecording := false, looperLength := s.looperWrite,
                   looperPlay := 0, looperPlaying := true } := by
        unfold looperRecordPhase
        rw [if_neg h1, if_pos ⟨h2, hnlt⟩]
        unfold finishLooperRecord
        rw [if_pos (by rw [hweq]; norm_num [kLooperMaxSamples])]
      rw [hrp]
      exact ⟨fun j _ => ⟨rfl, rfl⟩, fun _ hlt => absurd hlt hnlt,
        fun _ _ => ⟨hweq, rfl, hweq, rfl⟩⟩
    · have hrp : looperRecordPhase wetL wetR s = s := by
        unfold looperRecordPhase
        rw [if_neg h1, if_neg (fun hc => h2 hc.1)]
      rw [hrp]
      exact ⟨fun j _ => ⟨rfl, rfl⟩, fun hr _ => absurd hr h2, fun hr _ => absurd hr h2⟩

theorem looperOverflow_safety_witness :
    LooperInv recFullState ∧
    (recFullState.looperRecording = true →
      ¬ recFullState.looperWrite < kLooperMaxSamples →
      recFullState.looperWrite = kLooperMaxSamples ∧
      ((looperRenderStep 1 2 recFullState).2.2).looperRecording = false ∧
      ((looperRenderStep 1 2 recFullState).2.2).looperLength = kLooperMaxSamples ∧
      ((looperRenderStep 1 2 recFullState).2.2).looperPlaying = true) :=
  ⟨⟨fun _ => ⟨rfl, rfl⟩, fun h => absurd h (by decide), by decide⟩,
   (looperOverflow_safety 1 2 recFullState
      ⟨fun _ => ⟨rfl, rfl⟩, fun h => absurd h (by decide), by decide⟩).2.2⟩

/-- C7: melodic NoteOn allocation order — (1) reuse the first voice holding
this note that is active-or-keyDown; else (2) take the first idle voice;
else (3) steal the voice at the round-robin cursor, advancing the cursor by
exactly one modulo the pool size; in every case the chosen voice ends up
with the new note, velocity/127, keyDown, gate and active set (and oscillator
frequencies reseeded from the note plus the current pitch bend). -/
theorem noteOn_allocation (E : ExtFuns) (note velocity : Nat) (s : EngineState)
    (hvel : velocity ≠ 0) (hmode : s.instrMode = .polySynth) :
    (∀ i, findExistingVoiceForNote note s.voices = some i →
      (handleNoteOn E 1 note velocity s).voices =
        Function.update s.voices i (mkVoice E note ((velocity : ℚ) / 127) s.pitchBendSemi) ∧
      (handleNoteOn E 1 note velocity s).voiceRotate = s.voiceRotate) ∧
    (findExistingVoiceForNote note s.voices = none →
      (∀ i, findIdleVoice s.voices = some i →
        (handleNoteOn E 1 note velocity s).voices =
          Function.update s.voices i (mkVoice E note ((velocity : ℚ) / 127) s.pitchBendSemi) ∧
        (handleNoteOn E 1 note velocity s).voiceRotate = s.voiceRotate) ∧
      (findIdleVoice s.voices = none →
        (handleNoteOn E 1 note velocity s).voices =
          Function.update s.voices s.voiceRotate
            (mkVoice E note ((velocity : ℚ) / 127) s.pitchBendSemi) ∧
        (handleNoteOn E 1 note velocity s).voiceRotate = s.voiceRotate + 1)) := by
  have hred : handleNoteOn E 1 note velocity s =
      { (allocateVoiceForNote note s).2 with
        voices := Function.update (allocateVoiceForNote note s).2.voices
          (allocateVoiceForNote note s).1
          (mkVoice E note ((velocity : ℚ) / 127)
            (allocateVoiceForNote note s).2.pitchBendSemi) } := by
    unfold handleNoteOn
    rw [if_neg (by omega), if_neg hvel, if_neg (by simp [hmode])]
  refine ⟨?_, ?_⟩
  · intro i hfind
    have halloc : allocateVoiceForNote note s = (i, s) := by
      unfold allocateVoiceForNote; rw [hfind]
    rw [hred, halloc]
    exact ⟨rfl, rfl⟩
  · intro hnone
    refine ⟨?_, ?_⟩
    · intro i hidle
      have halloc : allocateVoiceForNote note s = (i, s) := by
        unfold allocateVoiceForNote; rw [hnone, hidle]
      rw [hred, halloc]
      exact ⟨rfl, rfl⟩
    · intro hidlenone
      have halloc : allocateVoiceForNote note s = stealVoice s := by
        unfold allocateVoiceForNote; rw [hnone, hidlenone]
      rw [hred, halloc]
      unfold stealVoice
      exact ⟨by rw [Function.update_idem], rfl⟩

theorem noteOn_allocation_witness :
    (100 : Nat) ≠ 0 ∧ initState.instrMode = .polySynth ∧
    ((∀ i, findExistingVoiceForNote 60 initState.voices = some i →
      (handleNoteOn ext0 1 60 100 initState).voices =
        Function.update initState.voices i
          (mkVoice ext0 60 ((100 : ℚ) / 127) initState.pitchBendSemi) ∧
      (handleNoteOn ext0 1 60 100 initState).voiceRotate = initState.voiceRotate) ∧
    (findExistingVoiceForNote 60 initState.voices = none →
      (∀ i, findIdleVoice initState.voices = some i →
        (handleNoteOn ext0 1 60 100 initState).voices =
          Function.update initState.voices i
            (mkVoice ext0 60 ((100 : ℚ) / 127) initState.pitchBendSemi) ∧
        (handleNoteOn ext0 1 60 100 initState).voiceRotate = initState.voiceRotate) ∧
      (findIdleVoice initState.voices = none →
        (handleNoteOn ext0 1 60 100 initState).voices =
          Function.update initState.voices initState.voiceRotate
            (mkVoice ext0 60 ((100 : ℚ) / 127) initState.pitchBendSemi) ∧
        (handleNoteOn ext0 1 60 100 initState).voiceRotate = initState.voiceRotate + 1))) :=
  ⟨by decide, rfl, noteOn_allocation ext0 60 100 initState (by decide) rfl⟩

/-- A successful `FindExistingVoiceForNote` returns a voice that holds the
note and is active-or-keyDown. -/
theorem findExisting_some (note : Nat) (vs : Fin 6 → Voice) (i : Fin 6)
    (h : findExistingVoiceForNote note vs = some i) :
    (vs i).note = note ∧ ((vs i).active || (vs i).keyDown) = true := by
  unfold findExistingVoiceForNote at h
  have hp := List.find?_some h
  simp only [Bool.and_eq_true, beq_iff_eq] at hp
  exact hp

/-- A failed `FindExistingVoiceForNote` means no voice holds the note while
active-or-keyDown. -/
theorem findExisting_none (note : Nat) (vs : Fin 6 → Voice)
    (h : findExistingVoiceForNote note vs = none) :
    ∀ i : Fin 6, ¬((vs i).note = note ∧ ((vs i).active || (vs i).keyDown) = true) := by
  intro i hc
  unfold findExistingVoiceForNote at h
  rw [List.find?_eq_none] at h
  have hni := h i (List.mem_finRange i)
  simp only [Bool.and_eq_true, beq_iff_eq] at hni
  exact hni hc

/-- The invariant transfers along any pointwise voice map that preserves
notes and only shrinks the active-or-keyDown set. -/
theorem voiceInv_mono (s : EngineState) {s' : EngineState}
    (hnote : ∀ i, (s'.voices i).note = (s.voices i).note)
    (hsound : ∀ i, ((s'.voices i).active || (s'.voices i).keyDown) = true →
      ((s.voices i).active || (s.voices i).keyDown) = true)
    (h : VoiceInv s) : VoiceInv s' := by
  intro a b ha hb hab
  rw [hnote a, hnote b] at hab
  exact h a b (hsound a ha) (hsound b hb) hab

/-- The invariant survives writing a fresh voice record at slot `k` when no
other slot is active-or-keyDown with the new voice's note. -/
theorem voiceInv_update (s s' : EngineState) (k : Fin 6) (nv : Voice)
    (hv : s'.voices = Function.update s.voices k nv)
    (h : VoiceInv s)
    (hk : ∀ b : Fin 6, b ≠ k → ((s.voices b).active || (s.voices b).keyDown) = true →
      (s.voices b).note = nv.note → False) :
    VoiceInv s' := by
  intro a b ha hb hab
  rw [hv] at ha hb hab
  by_cases hak : a = k <;> by_cases hbk : b = k
  · rw [hak, hbk]
  · subst hak
    rw [Function.update_same] at hab
    rw [Function.update_noteq hbk] at hb hab
    exact (hk b hbk hb hab.symm).elim
  · subst hbk
    rw [Function.update_same] at hab
    rw [Function.update_noteq hak] at ha hab
    exact (hk a hak ha hab).elim
  · rw [Function.update_noteq hak] at ha hab
    rw [Function.update_noteq hbk] at hb hab
    exact h a b ha hb hab

/-- Reduction of a melodic (non-zero-velocity, poly-mode, channel-1) NoteOn
to voice allocation plus the write of the fresh voice record. -/
theorem handleNoteOn_poly_red (E : ExtFuns) (n v : Nat) (s : EngineState)
    (hv : v ≠ 0) (hmode : s.instrMode = .polySynth) :
    handleNoteOn E 1 n v s =
      { (allocateVoiceForNote n s).2 with
        voices := Function.update (allocateVoiceForNote n s).2.voices
          (allocateVoiceForNote n s).1
          (mkVoice E n ((v : ℚ) / 127) (allocateVoiceForNote n s).2.pitchBendSemi) } := by
  unfold handleNoteOn
  rw [if_neg (by omega), if_neg hv, if_neg (by simp [hmode])]

/-- The note-release loop preserves the voice-pool invariant. -/
theorem voiceInv_release (s : EngineState) (su : Bool) (n : Nat) (h : VoiceInv s) :
    VoiceInv { s with voices := fun i => releaseIfMatch su n (s.voices i) } := by
  apply voiceInv_mono s
  · intro i
    show (releaseIfMatch su n (s.voices i)).note = (s.voices i).note
    unfold releaseIfMatch
    split <;> rfl
  · intro i
    show ((releaseIfMatch su n (s.voices i)).active ||
        (releaseIfMatch su n (s.voices i)).keyDown) = true →
      ((s.voices i).active || (s.voices i).keyDown) = true
    unfold releaseIfMatch
    by_cases hc : (s.voices i).note = n ∧ (s.voices i).keyDown = true
    · rw [if_pos hc]
      dsimp only
      intro hs
      rw [Bool.or_false] at hs
      rw [hs, Bool.true_or]
    · rw [if_neg hc]
      exact id
  · exact h

/-- `HandleNoteOn` preserves the voice-pool invariant. -/
theorem voiceInv_handleNoteOn (E : ExtFuns) (ch n v : Nat) (s : EngineState)
    (h : VoiceInv s) : VoiceInv (handleNoteOn E ch n v s) := by
  by_cases hch : ch ≠ 1
  · have hr : handleNoteOn E ch n v s = s := by unfold handleNoteOn; rw [if_pos hch]
    rw [hr]; exact h
  · have hc1 : ch = 1 := by omega
    subst hc1
    by_cases hv : v = 0
    · have hr : handleNoteOn E 1 n v s =
          { s with voices := fun i => releaseIfMatch s.sustainOn n (s.voices i) } := by
        unfold handleNoteOn
        rw [if_neg hch, if_pos hv]
      rw [hr]
      exact voiceInv_release s s.sustainOn n h
    · by_cases hmode : s.instrMode = .drumKit
      · have hr : handleNoteOn E 1 n v s = triggerDrum E n ((v : ℚ) / 127) s := by
          unfold handleNoteOn
          rw [if_neg hch, if_neg hv, if_pos hmode]
        rw [hr]
        intro a b ha hb hab
        exact h a b ha hb hab
      · have hpoly : s.instrMode = .polySynth := by
          cases hm : s.instrMode
          · rfl
          · exact absurd hm hmode
        have hred := handleNoteOn_poly_red E n v s hv hpoly
        rcases hfe : findExistingVoiceForNote n s.voices with _ | i
        · rcases hfi : findIdleVoice s.voices with _ | i
          · -- steal branch
            have halloc : allocateVoiceForNote n s = stealVoice s := by
              unfold allocateVoiceForNote; rw [hfe, hfi]
            rw [hred, halloc]
            apply voiceInv_update s _ s.voiceRotate
              (mkVoice E n ((v : ℚ) / 127) s.pitchBendSemi) ?_ h ?_
            · show Function.update (Function.update s.voices s.voiceRotate _)
                s.voiceRotate _ = _
              rw [Function.update_idem]
              rfl
            · intro b _ hb hn
              exact findExisting_none n s.voices hfe b ⟨hn, hb⟩
          · -- idle branch
            have halloc : allocateVoiceForNote n s = (i, s) := by
              unfold allocateVoiceForNote; rw [hfe, hfi]
            rw [hred, halloc]
            apply voiceInv_update s _ i
              (mkVoice E n ((v : ℚ) / 127) s.pitchBendSemi) rfl h ?_
            intro b _ hb hn
            exact findExisting_none n s.voices hfe b ⟨hn, hb⟩
        · -- reuse branch
          have halloc : allocateVoiceForNote n s = (i, s) := by
            unfold allocateVoiceForNote; rw [hfe]
          rw [hred, halloc]
          apply voiceInv_update s _ i
            (mkVoice E n ((v : ℚ) / 127) s.pitchBendSemi) rfl h ?_
          intro b hbk hb hn
          obtain ⟨hni, hsi⟩ := findExisting_some n s.voices i hfe
          exact hbk (h b i hb hsi (hn.trans hni.symm))

/-- `HandleNoteOff` preserves the voice-pool invariant. -/
theorem voiceInv_handleNoteOff (ch n v : Nat) (s : EngineState)
    (h : VoiceInv s) : VoiceInv (handleNoteOff ch n v s) := by
  unfold handleNoteOff
  split_ifs with h1 h2
  · exact h
  · exact h
  · exact voiceInv_release s s.sustainOn n h

/-- `HandleCC` either leaves the voice pool unchanged or (sustain-pedal
release) only clears gates. -/
theorem handleCC_voices (E : ExtFuns) (ch cc v : Nat) (s : EngineState) :
    (handleCC E ch cc v s).voices = s.voices ∨
    (handleCC E ch cc v s).voices = fun i =>
      if ¬((s.voices i).keyDown = true) ∧ (s.voices i).gate = true then
        { s.voices i with gate := false }
      else s.voices i := by
  by_cases hch : ch ≠ 1
  · left
    unfold handleCC
    rw [if_pos hch]
  · have h1 : ch = 1 := by omega
    subst h1
    by_cases h7 : cc = 7
    · subst h7; left; norm_num [handleCC]
    · by_cases h70 : cc = 70
      · subst h70; left; norm_num [handleCC]
      · by_cases h71 : cc = 71
        · subst h71; left; norm_num [handleCC]
        · by_cases h72 : cc = 72
          · subst h72; left; norm_num [handleCC]
          · by_cases h73 : cc = 73
            · subst h73; left; norm_num [handleCC]
            · by_cases h74 : cc = 74
              · subst h74; left; norm_num [handleCC]
              · by_cases h75 : cc = 75
                · subst h75; left; norm_num [handleCC]
                · by_cases h77 : cc = 77
                  · subst h77; left; norm_num [handleCC, updateDelayParams]
                  · by_cases h78 : cc = 78
                    · subst h78; left; norm_num [handleCC]
                    · by_cases h79 : cc = 79
                      · subst h79; left; norm_num [handleCC]
                      · by_cases h80 : cc = 80
                        · subst h80; left; norm_num [handleCC]
                        · by_cases h81 : cc = 81
                          · subst h81; left; norm_num [handleCC, updateReverbParams]
                          · by_cases h84 : cc = 84
                            · subst h84; left; norm_num [handleCC]
                            · by_cases h85 : cc = 85
                              · subst h85; left; norm_num [handleCC]
                              · by_cases h92 : cc = 92
                                · subst h92; left; norm_num [handleCC]
                                · by_cases h76 : cc = 76
                                  · subst h76; left; norm_num [handleCC]
                                  · by_cases hmw : cc = 1
                                    · subst hmw; left; norm_num [handleCC]
                                    · by_cases h64 : cc = 64
                                      · subst h64
                                        have hred : handleCC E 1 64 v s = sustainPedalCC v s := by
                                          norm_num [handleCC]
                                        rw [hred]
                                        simp only [sustainPedalCC]
                                        split_ifs
                                        · left; rfl
                                        · right; rfl
                                        · left; rfl
                                      · by_cases h90 : cc = 90
                                        · subst h90; left; norm_num [handleCC]
                                        · by_cases h91 : cc = 91
                                          · subst h91
                                            left
                                            rw [handleCC_looperControl]
                                            simp only [looperControlCC, stopLooper,
                                              startLooperRecord, finishLooperRecord,
                                              toggleLooperPlayback]
                                            split_ifs <;> rfl
                                          · left
                                            simp [handleCC, h7, h70, h71, h72, h73, h74,
                                              h75, h76, h77, h78, h79, h80, h81, h84,
                                              h85, h90, h91, h92, hmw, h64]

/-- `HandleCC` preserves the voice-pool invariant. -/
theorem voiceInv_handleCC (E : ExtFuns) (ch cc v : Nat) (s : EngineState)
    (h : VoiceInv s) : VoiceInv (handleCC E ch cc v s) := by
  rcases handleCC_voices E ch cc v s with hvc | hvc
  · intro a b ha hb hab
    rw [hvc] at ha hb hab
    exact h a b ha hb hab
  · apply voiceInv_mono s
    · intro i
      rw [hvc]
      show (if ¬((s.voices i).keyDown = true) ∧ (s.voices i).gate = true then
          { s.voices i with gate := false } else s.voices i).note = (s.voices i).note
      split <;> rfl
    · intro i
      rw [hvc]
      show ((if ¬((s.voices i).keyDown = true) ∧ (s.voices i).gate = true then
            { s.voices i with gate := false } else s.voices i).active ||
          (if ¬((s.voices i).keyDown = true) ∧ (s.voices i).gate = true then
            { s.voices i with gate := false } else s.voices i).keyDown) = true →
        ((s.voices i).active || (s.voices i).keyDown) = true
      split
      · exact id
      · exact id
    · exact h

/-- `HandlePitchBend` does not touch the voice pool. -/
theorem handlePitchBend_voices (ch l m : Nat) (s : EngineState) :
    (handlePitchBend ch l m s).voices = s.voices := by
  simp only [handlePitchBend]
  split_ifs <;> rfl

/-- Every decoded command preserves the voice-pool invariant. -/
theorem voiceInv_applyCmd (E : ExtFuns) (c : Cmd) (s : EngineState)
    (h : VoiceInv s) : VoiceInv (applyCmd E c s) := by
  cases c with
  | noteOn ch n v => exact voiceInv_handleNoteOn E ch n v s h
  | noteOff ch n v => exact voiceInv_handleNoteOff ch n v s h
  | controlChange ch cc v => exact voiceInv_handleCC E ch cc v s h
  | pitchBend ch l m =>
    intro a b ha hb hab
    simp only [applyCmd] at ha hb hab
    rw [handlePitchBend_voices] at ha hb hab
    exact h a b ha hb hab

/-- Command sequences preserve the voice-pool invariant. -/
theorem voiceInv_applyCmds (E : ExtFuns) (cs : List Cmd) :
    ∀ s : EngineState, VoiceInv s → VoiceInv (applyCmds E cs s) := by
  induction cs with
  | nil => intro s h; exact h
  | cons c cs ih =>
    intro s h
    exact ih (applyCmd E c s) (voiceInv_applyCmd E c s h)

/-- The freshly initialized engine satisfies the voice-pool invariant. -/
theorem voiceInv_initState : VoiceInv initState := by
  intro a b ha _ _
  exact absurd ha (by simp [initState])

/-- C3: from the initial state, over every sequence of NoteOn / NoteOff /
ControlChange / PitchBend commands, at most 6 voices are active-or-keyDown
and no two distinct voices hold the same note with keyDown set on both. -/
theorem voicePool_invariant (E : ExtFuns) (cmds : List Cmd) :
    countSounding (applyCmds E cmds initState) ≤ 6 ∧
    (∀ i j : Fin 6,
      ((applyCmds E cmds initState).voices i).keyDown = true →
      ((applyCmds E cmds initState).voices j).keyDown = true →
      ((applyCmds E cmds initState).voices i).note =
        ((applyCmds E cmds initState).voices j).note →
      i = j) := by
  constructor
  · unfold countSounding
    calc (List.filter _ (List.finRange 6)).length ≤ (List.finRange 6).length :=
          List.length_filter_le _ _
      _ = 6 := by simp
  · intro i j hi hj hn
    have hinv := voiceInv_applyCmds E cmds initState voiceInv_initState
    exact hinv i j (by rw [hi, Bool.or_true]) (by rw [hj, Bool.or_true]) hn

/-- The envelope snap never produces a negative value. -/
theorem snapEnv_nonneg (q : ℚ) (h : 0 ≤ q) : 0 ≤ snapEnv q := by
  unfold snapEnv
  split
  · exact le_refl 0
  · exact h

/-- The envelope snap never increases a nonnegative value. -/
theorem snapEnv_le (q : ℚ) (h : 0 ≤ q) : snapEnv q ≤ q := by
  unfold snapEnv
  split
  · exact h
  · exact le_refl q

/-- A step on an inactive drum voice is a no-op with zero output. -/
theorem drumVoiceStep_inactive (E : ExtFuns) (sr x : ℚ) (v : DrumVoice)
    (hv : v.active = false) : drumVoiceStep E sr x v = (0, v) := by
  simp [drumVoiceStep, hv]

/-- A step on an active drum voice advances both envelopes by one decay
multiplication (with the snap-to-zero), keeping the decay factors. -/
theorem drumVoiceStep_env_eq (E : ExtFuns) (sr x : ℚ) (v : DrumVoice)
    (hv : v.active = true) :
    ((drumVoiceStep E sr x v).2).env =
      { value := snapEnv (v.env.value * v.env.decay), decay := v.env.decay } ∧
    ((drumVoiceStep E sr x v).2).noiseEnv =
      { value := snapEnv (v.noiseEnv.value * v.noiseEnv.decay), decay := v.noiseEnv.decay } := by
  simp only [drumVoiceStep, simpleEnvProcess, hv, if_true]
  split
  · exact ⟨rfl, rfl⟩
  · exact ⟨rfl, rfl⟩

/-- Once both snapped envelope values hit zero, the step deactivates the
voice. -/
theorem drumVoiceStep_active_false (E : ExtFuns) (sr x : ℚ) (v : DrumVoice)
    (hv : v.active = true)
    (he : snapEnv (v.env.value * v.env.decay) = 0)
    (hn : snapEnv (v.noiseEnv.value * v.noiseEnv.decay) = 0) :
    ((drumVoiceStep E sr x v).2).active = false := by
  simp only [drumVoiceStep, simpleEnvProcess, hv, if_true]
  split
  · rfl
  · show (simpleEnvActiveB _ || simpleEnvActiveB _) = false
    simp only [simpleEnvActiveB, he, hn]
    norm_num

/-- A nonnegative geometric sequence with ratio below one eventually drops
below the envelope snap threshold. -/
theorem geom_decay_below (a d : ℚ) (ha : 0 ≤ a) (hd1 : d < 1) :
    ∃ K : ℕ, a * d ^ K < 0.00001 := by
  rcases eq_or_lt_of_le ha with h0 | hpos
  · exact ⟨0, by rw [← h0]; norm_num⟩
  · obtain ⟨K, hK⟩ := exists_pow_lt_of_lt_one (by positivity : (0:ℚ) < 0.00001 / a) hd1
    refine ⟨K, ?_⟩
    rw [mul_comm]
    exact (lt_div_iff₀ hpos).mp hK

/-- Iterated stepping of a drum voice: either it has deactivated, or its
envelope values are bounded by the corresponding geometric decay. -/
theorem drumIter_bounds (E : ExtFuns) (sr : ℚ) (ns : Nat → ℚ) (v : DrumVoice)
    (h1 : 0 ≤ v.env.value) (h2 : 0 ≤ v.env.decay)
    (h4 : 0 ≤ v.noiseEnv.value) (h5 : 0 ≤ v.noiseEnv.decay) :
    ∀ k : ℕ, (drumIter E sr ns v k).active = false ∨
      ((drumIter E sr ns v k).env.decay = v.env.decay ∧
       (drumIter E sr ns v k).noiseEnv.decay = v.noiseEnv.decay ∧
       0 ≤ (drumIter E sr ns v k).env.value ∧
       (drumIter E sr ns v k).env.value ≤ v.env.value * v.env.decay ^ k ∧
       0 ≤ (drumIter E sr ns v k).noiseEnv.value ∧
       (drumIter E sr ns v k).noiseEnv.value ≤ v.noiseEnv.value * v.noiseEnv.decay ^ k) := by
  intro k
  induction k with
  | zero =>
    right
    exact ⟨rfl, rfl, h1, by rw [pow_zero, mul_one]; exact le_refl _, h4,
      by rw [pow_zero, mul_one]; exact le_refl _⟩
  | succ k ih =>
    rcases ih with hin | ⟨hde, hdn, hge, hle, hgn, hln⟩
    · left
      show (drumVoiceStep E sr (ns k) (drumIter E sr ns v k)).2.active = false
      rw [drumVoiceStep_inactive E sr (ns k) _ hin]
      exact hin
    · by_cases hact : (drumIter E sr ns v k).active = true
      · right
        obtain ⟨heq, hneq⟩ := drumVoiceStep_env_eq E sr (ns k) _ hact
        have hdm : 0 ≤ (drumIter E sr ns v k).env.value * (drumIter E sr ns v k).env.decay := by
          rw [hde]; exact mul_nonneg hge h2
        have hdmn : 0 ≤ (drumIter E sr ns v k).noiseEnv.value *
            (drumIter E sr ns v k).noiseEnv.decay := by
          rw [hdn]; exact mul_nonneg hgn h5
        refine ⟨?_, ?_, ?_, ?_, ?_, ?_⟩
        · show (drumVoiceStep E sr (ns k) (drumIter E sr ns v k)).2.env.decay = _
          rw [heq]; exact hde
        · show (drumVoiceStep E sr (ns k) (drumIter E sr ns v k)).2.noiseEnv.decay = _
          rw [hneq]; exact hdn
        · show 0 ≤ (drumVoiceStep E sr (ns k) (drumIter E sr ns v k)).2.env.value
          rw [heq]; exact snapEnv_nonneg _ hdm
        · show (drumVoiceStep E sr (ns k) (drumIter E sr ns v k)).2.env.value ≤ _
          rw [heq]
          calc snapEnv ((drumIter E sr ns v k).env.value * (drumIter E sr ns v k).env.decay)
              ≤ (drumIter E sr ns v k).env.value * (drumIter E sr ns v k).env.decay :=
                snapEnv_le _ hdm
            _ = (drumIter E sr ns v k).env.value * v.env.decay := by rw [hde]
            _ ≤ (v.env.value * v.env.decay ^ k) * v.env.decay :=
                mul_le_mul_of_nonneg_right hle h2
            _ = v.env.value * v.env.decay ^ (k + 1) := by ring
        · show 0 ≤ (drumVoiceStep E sr (ns k) (drumIter E sr ns v k)).2.noiseEnv.value
          rw [hneq]; exact snapEnv_nonneg _ hdmn
        · show (drumVoiceStep E sr (ns k) (drumIter E sr ns v k)).2.noiseEnv.value ≤ _
          rw [hneq]
          calc snapEnv ((drumIter E sr ns v k).noiseEnv.value *
                (drumIter E sr ns v k).noiseEnv.decay)
              ≤ (drumIter E sr ns v k).noiseEnv.value *
                (drumIter E sr ns v k).noiseEnv.decay := snapEnv_le _ hdmn
            _ = (drumIter E sr ns v k).noiseEnv.value * v.noiseEnv.decay := by rw [hdn]
            _ ≤ (v.noiseEnv.value * v.noiseEnv.decay ^ k) * v.noiseEnv.decay :=
                mul_le_mul_of_nonneg_right hln h5
            _ = v.noiseEnv.value * v.noiseEnv.decay ^ (k + 1) := by ring
      · left
        have hfalse : (drumIter E sr ns v k).active = false := by
          rcases Bool.eq_false_or_eq_true (drumIter E sr ns v k).active with h | h
          · exact absurd h hact
          · exact h
        show (drumVoiceStep E sr (ns k) (drumIter E sr ns v k)).2.active = false
        rw [drumVoiceStep_inactive E sr (ns k) _ hfalse]
        exact hfalse

/-- A drum voice whose envelope decay factors lie in [0, 1) eventually
deactivates under iterated stepping, whatever the noise stream. -/
theorem drumIter_eventually_inactive (E : ExtFuns) (sr : ℚ) (ns : Nat → ℚ) (v : DrumVoice)
    (h1 : 0 ≤ v.env.value) (h2 : 0 ≤ v.env.decay) (h3 : v.env.decay < 1)
    (h4 : 0 ≤ v.noiseEnv.value) (h5 : 0 ≤ v.noiseEnv.decay) (h6 : v.noiseEnv.decay < 1) :
    ∃ k, (drumIter E sr ns v k).active = false := by
  obtain ⟨K1, hK1⟩ := geom_decay_below v.env.value v.env.decay h1 h3
  obtain ⟨K2, hK2⟩ := geom_decay_below v.noiseEnv.value v.noiseEnv.decay h4 h6
  have hb1 : v.env.value * v.env.decay ^ (max K1 K2) < 0.00001 :=
    lt_of_le_of_lt
      (mul_le_mul_of_nonneg_left
        (pow_le_pow_of_le_one h2 h3.le (le_max_left K1 K2)) h1) hK1
  have hb2 : v.noiseEnv.value * v.noiseEnv.decay ^ (max K1 K2) < 0.00001 :=
    lt_of_le_of_lt
      (mul_le_mul_of_nonneg_left
        (pow_le_pow_of_le_one h5 h6.le (le_max_right K1 K2)) h4) hK2
  rcases drumIter_bounds E sr ns v h1 h2 h4 h5 (max K1 K2) with hin | ⟨hde, hdn, hge, hle, hgn, hln⟩
  · exact ⟨max K1 K2, hin⟩
  · by_cases hact : (drumIter E sr ns v (max K1 K2)).active = true
    · refine ⟨max K1 K2 + 1, ?_⟩
      show (drumVoiceStep E sr (ns (max K1 K2)) (drumIter E sr ns v (max K1 K2))).2.active = false
      apply drumVoiceStep_active_false E sr (ns (max K1 K2)) _ hact
      · have hsm : (drumIter E sr ns v (max K1 K2)).env.value *
            (drumIter E sr ns v (max K1 K2)).env.decay < 0.00001 := by
          calc (drumIter E sr ns v (max K1 K2)).env.value *
                (drumIter E sr ns v (max K1 K2)).env.decay
              ≤ (drumIter E sr ns v (max K1 K2)).env.value * 1 :=
                mul_le_mul_of_nonneg_left (by rw [hde]; exact h3.le) hge
            _ = (drumIter E sr ns v (max K1 K2)).env.value := mul_one _
            _ ≤ v.env.value * v.env.decay ^ (max K1 K2) := hle
            _ < 0.00001 := hb1
        unfold snapEnv
        rw [if_pos hsm]
      · have hsm : (drumIter E sr ns v (max K1 K2)).noiseEnv.value *
            (drumIter E sr ns v (max K1 K2)).noiseEnv.decay < 0.00001 := by
          calc (drumIter E sr ns v (max K1 K2)).noiseEnv.value *
                (drumIter E sr ns v (max K1 K2)).noiseEnv.decay
              ≤ (drumIter E sr ns v (max K1 K2)).noiseEnv.value * 1 :=
                mul_le_mul_of_nonneg_left (by rw [hdn]; exact h6.le) hgn
            _ = (drumIter E sr ns v (max K1 K2)).noiseEnv.value := mul_one _
            _ ≤ v.noiseEnv.value * v.noiseEnv.decay ^ (max K1 K2) := hln
            _ < 0.00001 := hb2
        unfold snapEnv
        rw [if_pos hsm]
    · have hfalse : (drumIter E sr ns v (max K1 K2)).active = false := by
        rcases Bool.eq_false_or_eq_true (drumIter E sr ns v (max K1 K2)).active with h | h
        · exact absurd h hact
        · exact h
      exact ⟨max K1 K2, hfalse⟩

/-- C10: in a render step the drum bus (computed unconditionally by
`ProcessDrums`) is added to the dry signal exactly when the instrument mode
is drum kit; drum voices advance regardless of the mode, contribute nothing
to the dry signal in poly-synth mode, and any decaying drum voice (envelope
decay factors in [0, 1)) eventually deactivates. -/
theorem drumSection_mode_gating (E : ExtFuns) (noise : Fin 8 → ℚ) (dry : ℚ)
    (s : EngineState) (sr : ℚ) (ns : Nat → ℚ) (v : DrumVoice)
    (h1 : 0 ≤ v.env.value) (h2 : 0 ≤ v.env.decay) (h3 : v.env.decay < 1)
    (h4 : 0 ≤ v.noiseEnv.value) (h5 : 0 ≤ v.noiseEnv.decay) (h6 : v.noiseEnv.decay < 1) :
    ((renderDrumSection E noise dry s).1 =
      (if s.instrMode = .drumKit then dry + (processDrums E s.samplerate noise s.drums).1
       else dry)) ∧
    ((renderDrumSection E noise dry s).2.drums =
      (processDrums E s.samplerate noise s.drums).2) ∧
    (s.instrMode = .polySynth → (renderDrumSection E noise dry s).1 = dry) ∧
    (∃ k, (drumIter E sr ns v k).active = false) := by
  refine ⟨rfl, rfl, ?_, drumIter_eventually_inactive E sr ns v h1 h2 h3 h4 h5 h6⟩
  intro hp
  simp [renderDrumSection, hp]

theorem drumSection_mode_gating_witness :
    (0 : ℚ) ≤ decayingDrumVoice.env.value ∧ decayingDrumVoice.env.decay < 1 ∧
    (((renderDrumSection ext0 (fun _ => 0) 0 initState).1 =
      (if initState.instrMode = .drumKit then
        0 + (processDrums ext0 initState.samplerate (fun _ => 0) initState.drums).1
       else 0)) ∧
    ((renderDrumSection ext0 (fun _ => 0) 0 initState).2.drums =
      (processDrums ext0 initState.samplerate (fun _ => 0) initState.drums).2) ∧
    (initState.instrMode = .polySynth →
      (renderDrumSection ext0 (fun _ => 0) 0 initState).1 = 0) ∧
    (∃ k, (drumIter ext0 48000 (fun _ => 0) decayingDrumVoice k).active = false)) :=
  ⟨by norm_num [decayingDrumVoice], by norm_num [decayingDrumVoice],
   drumSection_mode_gating ext0 (fun _ => 0) 0 initState 48000 (fun _ => 0) decayingDrumVoice
     (by norm_num [decayingDrumVoice]) (by norm_num [decayingDrumVoice])
     (by norm_num [decayingDrumVoice]) (by norm_num [decayingDrumVoice])
     (by norm_num [decayingDrumVoice]) (by norm_num [decayingDrumVoice])⟩

/-- The looper invariant only depends on four looper fields. -/
theorem looperInv_of_fields (s s' : EngineState)
    (hr : s'.looperRecording = s.looperRecording)
    (hp : s'.looperPlaying = s.looperPlaying)
    (hw : s'.looperWrite = s.looperWrite)
    (hl : s'.looperLength = s.looperLength)
    (h : LooperInv s) : LooperInv s' := by
  refine ⟨?_, ?_, ?_⟩
  · intro ha; rw [hr] at ha; rw [hl, hp]; exact h.1 ha
  · intro ha; rw [hp] at ha; rw [hl]; exact h.2.1 ha
  · rw [hw]; exact h.2.2

/-- `HandleNoteOn` never touches the looper. -/
theorem handleNoteOn_looper (E : ExtFuns) (ch n v : Nat) (s : EngineState) :
    (handleNoteOn E ch n v s).looperRecording = s.looperRecording ∧
    (handleNoteOn E ch n v s).looperPlaying = s.looperPlaying ∧
    (handleNoteOn E ch n v s).looperWrite = s.looperWrite ∧
    (handleNoteOn E ch n v s).looperLength = s.looperLength := by
  by_cases hch : ch ≠ 1
  · have hr : handleNoteOn E ch n v s = s := by unfold handleNoteOn; rw [if_pos hch]
    rw [hr]; exact ⟨rfl, rfl, rfl, rfl⟩
  · have hc1 : ch = 1 := by omega
    subst hc1
    by_cases hv : v = 0
    · have hr : handleNoteOn E 1 n v s =
          { s with voices := fun i => releaseIfMatch s.sustainOn n (s.voices i) } := by
        unfold handleNoteOn; rw [if_neg hch, if_pos hv]
      rw [hr]; exact ⟨rfl, rfl, rfl, rfl⟩
    · by_cases hmode : s.instrMode = .drumKit
      · have hr : handleNoteOn E 1 n v s = triggerDrum E n ((v : ℚ) / 127) s := by
          unfold handleNoteOn; rw [if_neg hch, if_neg hv, if_pos hmode]
        rw [hr]
        unfold triggerDrum
        exact ⟨rfl, rfl, rfl, rfl⟩
      · have hpoly : s.instrMode = .polySynth := by
          cases hm : s.instrMode
          · rfl
          · exact absurd hm hmode
        have hred := handleNoteOn_poly_red E n v s hv hpoly
        rcases hfe : findExistingVoiceForNote n s.voices with _ | i
        · rcases hfi : findIdleVoice s.voices with _ | i
          · have halloc : allocateVoiceForNote n s = stealVoice s := by
              unfold allocateVoiceForNote; rw [hfe, hfi]
            rw [hred, halloc]
            exact ⟨rfl, rfl, rfl, rfl⟩
          · have halloc : allocateVoiceForNote n s = (i, s) := by
              unfold allocateVoiceForNote; rw [hfe, hfi]
            rw [hred, halloc]
            exact ⟨rfl, rfl, rfl, rfl⟩
        · have halloc : allocateVoiceForNote n s = (i, s) := by
            unfold allocateVoiceForNote; rw [hfe]
          rw [hred, halloc]
          exact ⟨rfl, rfl, rfl, rfl⟩

/-- `HandleNoteOff` never touches the looper. -/
theorem handleNoteOff_looper (ch n v : Nat) (s : EngineState) :
    (handleNoteOff ch n v s).looperRecording = s.looperRecording ∧
    (handleNoteOff ch n v s).looperPlaying = s.looperPlaying ∧
    (handleNoteOff ch n v s).looperWrite = s.looperWrite ∧
    (handleNoteOff ch n v s).looperLength = s.looperLength := by
  unfold handleNoteOff
  split_ifs <;> exact ⟨rfl, rfl, rfl, rfl⟩

/-- `HandlePitchBend` never touches the looper. -/
theorem handlePitchBend_looper (ch l m : Nat) (s : EngineState) :
    (handlePitchBend ch l m s).looperRecording = s.looperRecording ∧
    (handlePitchBend ch l m s).looperPlaying = s.looperPlaying ∧
    (handlePitchBend ch l m s).looperWrite = s.looperWrite ∧
    (handlePitchBend ch l m s).looperLength = s.looperLength := by
  simp only [handlePitchBend]
  split_ifs <;> exact ⟨rfl, rfl, rfl, rfl⟩

/-- `HandleCC` either leaves the looper untouched or is exactly the
looper-control branch. -/
theorem handleCC_looper (E : ExtFuns) (ch cc v : Nat) (s : EngineState) :
    ((handleCC E ch cc v s).looperRecording = s.looperRecording ∧
     (handleCC E ch cc v s).looperPlaying = s.looperPlaying ∧
     (handleCC E ch cc v s).looperWrite = s.looperWrite ∧
     (handleCC E ch cc v s).looperLength = s.looperLength) ∨
    handleCC E ch cc v s = looperControlCC v s := by
  by_cases hch : ch ≠ 1
  · left
    have hr : handleCC E ch cc v s = s := by unfold handleCC; rw [if_pos hch]
    rw [hr]; exact ⟨rfl, rfl, rfl, rfl⟩
  · have h1 : ch = 1 := by omega
    subst h1
    by_cases h7 : cc = 7
    · subst h7; left; norm_num [handleCC]
    · by_cases h70 : cc = 70
      · subst h70; left; norm_num [handleCC]
      · by_cases h71 : cc = 71
        · subst h71; left; norm_num [handleCC]
        · by_cases h72 : cc = 72
          · subst h72; left; norm_num [handleCC]
          · by_cases h73 : cc = 73
            · subst h73; left; norm_num [handleCC]
            · by_cases h74 : cc = 74
              · subst h74; left; norm_num [handleCC]
              · by_cases h75 : cc = 75
                · subst h75; left; norm_num [handleCC]
                · by_cases h77 : cc = 77
                  · subst h77; left; norm_num [handleCC, updateDelayParams]
                  · by_cases h78 : cc = 78
                    · subst h78; left; norm_num [handleCC]
                    · by_cases h79 : cc = 79
                      · subst h79; left; norm_num [handleCC]
                      · by_cases h80 : cc = 80
                        · subst h80; left; norm_num [handleCC]
                        · by_cases h81 : cc = 81
                          · subst h81; left; norm_num [handleCC, updateReverbParams]
                          · by_cases h84 : cc = 84
                            · subst h84; left; norm_num [handleCC]
                            · by_cases h85 : cc = 85
                              · subst h85; left; norm_num [handleCC]
                              · by_cases h92 : cc = 92
                                · subst h92; left; norm_num [handleCC]
                                · by_cases h76 : cc = 76
                                  · subst h76; left; norm_num [handleCC]
                                  · by_cases hmw : cc = 1
                                    · subst hmw; left; norm_num [handleCC]
                                    · by_cases h64 : cc = 64
                                      · subst h64
                                        left
                                        have hred : handleCC E 1 64 v s =
                                            sustainPedalCC v s := by
                                          norm_num [handleCC]
                                        rw [hred]
                                        simp only [sustainPedalCC]
                                        split_ifs <;> exact ⟨rfl, rfl, rfl, rfl⟩
                                      · by_cases h90 : cc = 90
                                        · subst h90; left; norm_num [handleCC]
                                        · by_cases h91 : cc = 91
                                          · subst h91
                                            right
                                            exact handleCC_looperControl E v s
                                          · left
                                            simp [handleCC, h7, h70, h71, h72, h73, h74,
                                              h75, h76, h77, h78, h79, h80, h81, h84,
                                              h85, h90, h91, h92, hmw, h64]

/-- The looper-control branch preserves the looper invariant. -/
theorem looperInv_looperControlCC (v : Nat) (s : EngineState) (h : LooperInv s) :
    LooperInv (looperControlCC v s) := by
  unfold looperControlCC
  split_ifs with hv1 hv2 hrec
  · -- StopLooper
    refine ⟨?_, ?_, ?_⟩
    · intro ha; exact absurd ha (by simp [stopLooper])
    · intro ha; exact absurd ha (by simp [stopLooper])
    · show (0 : Nat) ≤ kLooperMaxSamples
      exact Nat.zero_le _
  · -- FinishLooperRecord
    unfold finishLooperRecord
    split_ifs with hw
    · refine ⟨?_, ?_, ?_⟩
      · intro ha; exact absurd ha (by simp)
      · intro _; exact hw
      · exact h.2.2
    · refine ⟨?_, ?_, ?_⟩
      · intro ha; exact absurd ha (by simp)
      · intro ha
        exact h.2.1 ha
      · exact h.2.2
  · -- StartLooperRecord
    refine ⟨?_, ?_, ?_⟩
    · intro _; exact ⟨rfl, rfl⟩
    · intro ha; exact absurd ha (by simp [startLooperRecord])
    · show (0 : Nat) ≤ kLooperMaxSamples
      exact Nat.zero_le _
  · -- ToggleLooperPlayback
    unfold toggleLooperPlayback
    split_ifs with hl
    · exact h
    · refine ⟨?_, ?_, ?_⟩
      · intro ha
        exact absurd (h.1 ha).1 hl
      · intro _
        exact Nat.pos_of_ne_zero hl
      · exact h.2.2

/-- Every decoded command preserves the looper invariant. -/
theorem looperInv_applyCmd (E : ExtFuns) (c : Cmd) (s : EngineState)
    (h : LooperInv s) : LooperInv (applyCmd E c s) := by
  cases c with
  | noteOn ch n v =>
    obtain ⟨h1, h2, h3, h4⟩ := handleNoteOn_looper E ch n v s
    exact looperInv_of_fields s _ h1 h2 h3 h4 h
  | noteOff ch n v =>
    obtain ⟨h1, h2, h3, h4⟩ := handleNoteOff_looper ch n v s
    exact looperInv_of_fields s _ h1 h2 h3 h4 h
  | controlChange ch cc v =>
    rcases handleCC_looper E ch cc v s with ⟨h1, h2, h3, h4⟩ | hr
    · exact looperInv_of_fields s _ h1 h2 h3 h4 h
    · show LooperInv (handleCC E ch cc v s)
      rw [hr]
      exact looperInv_looperControlCC v s h
  | pitchBend ch l m =>
    obtain ⟨h1, h2, h3, h4⟩ := handlePitchBend_looper ch l m s
    exact looperInv_of_fields s _ h1 h2 h3 h4 h

/-- The render step preserves the looper invariant. -/
theorem looperInv_looperRenderStep (wetL wetR : ℚ) (s : EngineState)
    (h : LooperInv s) : LooperInv ((looperRenderStep wetL wetR s).2.2) := by
  obtain ⟨hbL, hbR, hbW, hbRec, hbLen, hbPl⟩ :=
    looperPlayPhase_frame wetL wetR (looperRecordPhase wetL wetR s)
  apply looperInv_of_fields (looperRecordPhase wetL wetR s) _ hbRec hbPl hbW hbLen
  by_cases h1 : s.looperRecording = true ∧ s.looperWrite < kLooperMaxSamples
  · have hrp : looperRecordPhase wetL wetR s =
        { s with looperL := Function.update s.looperL s.looperWrite wetL,
                 looperR := Function.update s.looperR s.looperWrite wetR,
                 looperWrite := s.looperWrite + 1 } := by
      unfold looperRecordPhase
      rw [if_pos h1]
    rw [hrp]
    refine ⟨?_, ?_, ?_⟩
    · intro ha; exact h.1 ha
    · intro ha; exact h.2.1 ha
    · exact h1.2
  · by_cases h2 : s.looperRecording = true
    · have hnlt : ¬ s.looperWrite < kLooperMaxSamples := fun hc => h1 ⟨h2, hc⟩
      have hrp : looperRecordPhase wetL wetR s = finishLooperRecord s := by
        unfold looperRecordPhase
        rw [if_neg h1, if_pos ⟨h2, hnlt⟩]
      rw [hrp]
      unfold finishLooperRecord
      split_ifs with hw
      · refine ⟨?_, ?_, ?_⟩
        · intro ha; exact absurd ha (by simp)
        · intro _; exact hw
        · exact h.2.2
      · refine ⟨?_, ?_, ?_⟩
        · intro ha; exact absurd ha (by simp)
        · intro ha; exact h.2.1 ha
        · exact h.2.2
    · have hrp : looperRecordPhase wetL wetR s = s := by
        unfold looperRecordPhase
        rw [if_neg h1, if_neg (fun hc => h2 hc.1)]
      rw [hrp]
      exact h

/-- The freshly initialized engine satisfies the looper invariant. -/
theorem looperInv_initState : LooperInv initState := by
  refine ⟨?_, ?_, ?_⟩
  · intro ha; exact absurd ha (by decide)
  · intro ha; exact absurd ha (by decide)
  · decide
